import Mathlib

/-!
Verification of the 4D tensor visualizer engine (src/app.js).

The layout/interaction core is embedded shallowly:
* positions and geometry constants use `ℚ` (the JS source computes with
  IEEE doubles; every claim under consideration is about the exact
  arithmetic structure of the layout formulas, which the rational
  embedding captures);
* `renderTensor` is the scene rebuild (src/app.js, `renderTensor`),
  parameterised by the activation sampler `vals` standing for the
  `Math.random()` calls;
* highlighting, reset, picking and the camera-state step relation follow
  the corresponding handlers in src/app.js.
-/

/-- Geometry constant `cellSize = 0.7` (src/app.js line 79). -/
def cellSize : ℚ := 7/10

/-- Geometry constant `gap = 0.15` (src/app.js line 80). -/
def gap : ℚ := 3/20

/-- Geometry constant `depth = 0.2` (src/app.js line 81). -/
def depth : ℚ := 1/5

/-- The tensor shape `{H, B, S, D}`: heads, batches, sequence, dim. -/
structure Shape where
  H : Nat
  B : Nat
  S : Nat
  D : Nat
deriving DecidableEq, Repr

/-- `blockW = state.D * (cellSize + gap)` (src/app.js line 83). -/
def blockW (sh : Shape) : ℚ := (sh.D : ℚ) * (cellSize + gap)

/-- `blockH = state.S * (cellSize + gap)` (src/app.js line 84). -/
def blockH (sh : Shape) : ℚ := (sh.S : ℚ) * (cellSize + gap)

/-- `headSpacing = blockW * 2.0` (src/app.js line 85). -/
def headSpacing (sh : Shape) : ℚ := blockW sh * 2

/-- `startX = -((state.H - 1) * headSpacing) / 2` (src/app.js line 86). -/
def startX (sh : Shape) : ℚ := -(((sh.H : ℚ) - 1) * headSpacing sh) / 2

/-- `explodeFac = 1 + (state.explode * 3)` (src/app.js line 93). -/
def explodeFac (explode : ℚ) : ℚ := 1 + explode * 3

/-- `zOffset = -b * (depth + 0.1) * explodeFac` (src/app.js line 94). -/
def zOffset (explode : ℚ) (b : Nat) : ℚ := -(b : ℚ) * (depth + 1/10) * explodeFac explode

/-- `xyOffset = b * 0.15 * (1 + state.explode)` (src/app.js line 95). -/
def xyOffset (explode : ℚ) (b : Nat) : ℚ := (b : ℚ) * (3/20) * (1 + explode)

/-- A 3D position. -/
structure Vec3 where
  x : ℚ
  y : ℚ
  z : ℚ
deriving DecidableEq, Repr

/-- A 4D tensor index `(h, b, s, d)` as stored in `cell.indices`. -/
structure Idx where
  h : Nat
  b : Nat
  s : Nat
  d : Nat
deriving DecidableEq, Repr

/-- A front-layer cell: index record, resolved position of its cell group,
mock activation value, and the two mutable emphasis fields
(`mesh.material.emissiveIntensity` and `edge.material.opacity`). -/
structure Cell where
  indices : Idx
  pos : Vec3
  val : ℚ
  emissive : ℚ
  edgeOpacity : ℚ
deriving DecidableEq, Repr

/-- A ghost layer: one coarse volume per non-zero batch index
(src/app.js lines 138-143). -/
structure Ghost where
  pos : Vec3
  footprint : ℚ × ℚ
deriving DecidableEq, Repr

/-- One block per head: the group's x offset, its interactive front-layer
cells (`blockData.cells`) and its ghost drawables. -/
structure Block where
  groupX : ℚ
  cells : List Cell
  ghosts : List Ghost
deriving DecidableEq, Repr

/-- Baseline emissive intensity, `state.isHeatmap ? 0.3 : 0.1`
(src/app.js lines 117 and 274). -/
def baselineEmissive (heatmap : Bool) : ℚ := if heatmap then 3/10 else 1/10

/-- Construction of one front-layer cell of head `h` at `(s, d)`
(src/app.js lines 99-134); the `b = 0` offsets are written out as the
loop computes them. -/
def mkCell (sh : Shape) (explode : ℚ) (heatmap : Bool)
    (vals : Nat → Nat → Nat → ℚ) (h s d : Nat) : Cell :=
  { indices := ⟨h, 0, s, d⟩
    pos := { x := (-(blockW sh / 2) + (d : ℚ) * (cellSize + gap) + cellSize / 2) + xyOffset explode 0
             y := (blockH sh / 2 - (s : ℚ) * (cellSize + gap) - cellSize / 2) + xyOffset explode 0
             z := zOffset explode 0 }
    val := vals h s d
    emissive := baselineEmissive heatmap
    edgeOpacity := 1/5 }

/-- Construction of the ghost volume for batch index `b > 0`
(src/app.js lines 139-142). -/
def mkGhost (sh : Shape) (explode : ℚ) (b : Nat) : Ghost :=
  { pos := ⟨xyOffset explode b, xyOffset explode b, zOffset explode b⟩
    footprint := (blockW sh, blockH sh) }

/-- The front-layer cells of head `h`: the `s`/`d` double loop of
src/app.js lines 99-136. -/
def frontCells (sh : Shape) (explode : ℚ) (heatmap : Bool)
    (vals : Nat → Nat → Nat → ℚ) (h : Nat) : List Cell :=
  (List.range sh.S).flatMap fun s =>
    (List.range sh.D).map fun d => mkCell sh explode heatmap vals h s d

/-- The ghost layers of a block: the `b` loop of src/app.js lines 92-144
restricted to its `else` branch (`b ≠ 0`). -/
def ghostLayers (sh : Shape) (explode : ℚ) : List Ghost :=
  (List.range sh.B).filterMap fun b =>
    if b = 0 then none else some (mkGhost sh explode b)

/-- The scene rebuild `renderTensor` (src/app.js lines 74-152): one block
per head, positioned at `startX + h * headSpacing`. -/
def renderTensor (sh : Shape) (explode : ℚ) (heatmap : Bool)
    (vals : Nat → Nat → Nat → ℚ) : List Block :=
  (List.range sh.H).map fun h : Nat =>
    { groupX := startX sh + (h : ℚ) * headSpacing sh
      cells := frontCells sh explode heatmap vals h
      ghosts := ghostLayers sh explode }

/-- Sum of the interactive (front-layer) cell counts over all blocks. -/
def totalCells (blocks : List Block) : Nat :=
  (blocks.map fun b => b.cells.length).sum

/-! ### Helper lemmas about ranges and flat maps -/

lemma sum_const_range (n c : Nat) : ((List.range n).map fun _ => c).sum = n * c := by
  induction n with
  | zero => simp
  | succ m ih =>
    rw [List.range_succ, List.map_append, List.sum_append, ih]
    simp [Nat.succ_mul]

lemma range_filterMap_succ {α : Type} (g : Nat → α) (n : Nat) :
    ((List.range n).filterMap fun b => if b = 0 then none else some (g b))
      = (List.range (n - 1)).map fun i => g (i + 1) := by
  induction n with
  | zero => rfl
  | succ m ih =>
    rw [List.range_succ, List.filterMap_append, ih]
    cases m with
    | zero => rfl
    | succ k =>
      have h1 : ([k + 1].filterMap fun b => if b = 0 then none else some (g b))
          = [g (k + 1)] := rfl
      have h2 : (k + 1 + 1 - 1) = k + 1 := rfl
      have h3 : (k + 1 - 1) = k := rfl
      rw [h1, h2, h3, List.range_succ, List.map_append]
      rfl

lemma ghostLayers_eq (sh : Shape) (e : ℚ) :
    ghostLayers sh e = (List.range (sh.B - 1)).map fun i => mkGhost sh e (i + 1) := by
  unfold ghostLayers
  rw [range_filterMap_succ]

lemma frontCells_length (sh : Shape) (e : ℚ) (hm : Bool)
    (v : Nat → Nat → Nat → ℚ) (h : Nat) :
    (frontCells sh e hm v h).length = sh.S * sh.D := by
  unfold frontCells
  rw [List.length_flatMap]
  simp only [Function.comp_def, List.length_map, List.length_range]
  rw [sum_const_range]

lemma ghostLayers_length (sh : Shape) (e : ℚ) :
    (ghostLayers sh e).length = sh.B - 1 := by
  rw [ghostLayers_eq]; simp

lemma renderTensor_getElem (sh : Shape) (e : ℚ) (hm : Bool)
    (v : Nat → Nat → Nat → ℚ) (h : Nat) (hh : h < sh.H) :
    (renderTensor sh e hm v)[h]? =
      some { groupX := startX sh + (h : ℚ) * headSpacing sh
             cells := frontCells sh e hm v h
             ghosts := ghostLayers sh e } := by
  unfold renderTensor
  simp [List.getElem?_map, List.getElem?_range, hh]

lemma flatMap_range'_getElem {α : Type} (f : Nat → List α) (D : Nat)
    (hf : ∀ i, (f i).length = D) (n : Nat) :
    ∀ (a s d : Nat), s < n → d < D →
      ((List.range' a n).flatMap f)[s * D + d]? = (f (a + s))[d]? := by
  induction n with
  | zero => intro a s d hs _; omega
  | succ m ih =>
    intro a s d hs hd
    rw [List.range'_succ, List.flatMap_cons]
    cases s with
    | zero =>
      have hd' : 0 * D + d < (f a).length := by rw [hf a]; omega
      rw [List.getElem?_append, if_pos hd']
      simp
    | succ t =>
      have hexp : (t + 1) * D = t * D + D := by ring
      have hge : (f a).length ≤ (t + 1) * D + d := by rw [hf a]; omega
      rw [List.getElem?_append_right hge]
      have heq : (t + 1) * D + d - (f a).length = t * D + d := by rw [hf a]; omega
      rw [heq, ih (a + 1) t d (by omega) hd]
      have hat : a + 1 + t = a + (t + 1) := by omega
      rw [hat]

lemma frontCells_getElem (sh : Shape) (e : ℚ) (hm : Bool)
    (v : Nat → Nat → Nat → ℚ) (h s d : Nat) (hs : s < sh.S) (hd : d < sh.D) :
    (frontCells sh e hm v h)[s * sh.D + d]? = some (mkCell sh e hm v h s d) := by
  unfold frontCells
  rw [List.range_eq_range',
    flatMap_range'_getElem _ sh.D (fun i => by simp) sh.S 0 s d hs hd]
  simp [List.getElem?_map, List.getElem?_range, hd]

lemma frontCells_mem (sh : Shape) (e : ℚ) (hm : Bool)
    (v : Nat → Nat → Nat → ℚ) (h : Nat) (c : Cell)
    (hc : c ∈ frontCells sh e hm v h) :
    ∃ s d, s < sh.S ∧ d < sh.D ∧ c = mkCell sh e hm v h s d := by
  simp only [frontCells, List.mem_flatMap, List.mem_map, List.mem_range] at hc
  obtain ⟨s, hs, d, hd, rfl⟩ := hc
  exact ⟨s, d, hs, hd, rfl⟩

/-! ### Picking, highlighting, tooltip -/

/-- The resolved front cell at `(h, s, d)` of the rebuilt scene: block `h`,
cell number `s * D + d` of its `blockData.cells` list. -/
def frontCellAt (sh : Shape) (e : ℚ) (hm : Bool) (v : Nat → Nat → Nat → ℚ)
    (h s d : Nat) : Option Cell :=
  ((renderTensor sh e hm v)[h]?).bind fun blk => blk.cells[s * sh.D + d]?

/-- The ghost drawable of batch index `b ≥ 1` in block `h` (ghost number
`b - 1` of the block's ghost list). -/
def ghostAt (sh : Shape) (e : ℚ) (hm : Bool) (v : Nat → Nat → Nat → ℚ)
    (h b : Nat) : Option Ghost :=
  ((renderTensor sh e hm v)[h]?).bind fun blk => blk.ghosts[b - 1]?

/-- The drawables offered to the raycaster:
`tensorBlocks.flatMap(b => b.cells.map(c => c.mesh))` (src/app.js line 234).
Each mesh is identified with its registered cell; ghost drawables are not
part of `blockData.cells`, hence never occur here. -/
def pickSet (blocks : List Block) : List Cell :=
  blocks.flatMap fun b => b.cells

/-- Resolution of the raycaster output (src/app.js lines 239-244):
`intersects` is the distance-sorted intersection list restricted to the
pick set, so its head is the nearest hit; the result is that cell's
registered index, or `none` on a miss. -/
def pick (intersects : List Cell) : Option Idx :=
  intersects.head?.map fun c => c.indices

/-- `highlightCrossSection`'s per-cell update (src/app.js lines 262-268). -/
def highlightCell (s d : Nat) (c : Cell) : Cell :=
  if c.indices.s = s ∧ c.indices.d = d then
    { c with emissive := 1, edgeOpacity := 1 }
  else
    { c with emissive := 1/10, edgeOpacity := 1/10 }

/-- `highlightCrossSection(s, d)` (src/app.js lines 260-270). -/
def highlightCrossSection (s d : Nat) (blocks : List Block) : List Block :=
  blocks.map fun b => { b with cells := b.cells.map (highlightCell s d) }

/-- `resetHighlights()` (src/app.js lines 272-277). -/
def resetHighlights (heatmap : Bool) (blocks : List Block) : List Block :=
  blocks.map fun b =>
    { b with cells := b.cells.map fun c =>
        { c with emissive := baselineEmissive heatmap, edgeOpacity := 1/5 } }

/-- The interaction state touched by the hover handler. -/
structure UIState where
  blocks : List Block
  tooltipVisible : Bool
deriving Repr

/-- The miss branch of `onMouseMove` (src/app.js lines 254-257): hide the
tooltip and revert all highlights. -/
def onMouseMoveMiss (heatmap : Bool) (st : UIState) : UIState :=
  { blocks := resetHighlights heatmap st.blocks, tooltipVisible := false }

/-- Number of cells currently carrying the emphasized emissive intensity. -/
def emphasizedCount (blocks : List Block) : Nat :=
  (blocks.map fun b => b.cells.countP fun c => decide (c.emissive = 1)).sum

/-- Projection of a cell to its rebuild-determined data (index, position,
activation value), dropping the two mutable emphasis fields. -/
def stripCell (c : Cell) : Idx × Vec3 × ℚ :=
  (c.indices, c.pos, c.val)

/-- Projection of a block to its rebuild-determined data. -/
def stripBlock (b : Block) : ℚ × List (Idx × Vec3 × ℚ) × List Ghost :=
  (b.groupX, b.cells.map stripCell, b.ghosts)

/-- Projection of a cell to its placement data (registered index and
position), used to compare the position outputs of two rebuilds. -/
def cellPlacement (c : Cell) : Idx × Vec3 :=
  (c.indices, c.pos)

/-- Projection of a ghost to its placement data. -/
def ghostPlacement (g : Ghost) : Vec3 × (ℚ × ℚ) :=
  (g.pos, g.footprint)

/-- All positions assigned by a rebuild: per block its group x offset, the
cell placements and the ghost placements. -/
def scenePlacement (blocks : List Block) : List (ℚ × List (Idx × Vec3) × List (Vec3 × (ℚ × ℚ))) :=
  blocks.map fun b => (b.groupX, b.cells.map cellPlacement, b.ghosts.map ghostPlacement)

/-! ### Camera state and input events -/

/-- Camera orbit state: azimuth `angles.x`, elevation `angles.y`, distance
`cameraDist` (src/app.js lines 12-13). -/
structure CamState where
  x : ℚ
  y : ℚ
  dist : ℚ
deriving DecidableEq, Repr

/-- The default camera state (src/app.js lines 12-13, restored by the
reset button, lines 189-193). -/
def defaultCam : CamState := { x := 1/2, y := 2/5, dist := 25 }

/-- The input events that mutate the camera orbit state. -/
inductive CamEvent where
  | drag (dx dy : ℚ)
  | wheel (delta : ℚ)
  | resetView
  | rotateTick
deriving Repr

/-- One camera-state input step: drag with button held
(src/app.js lines 227-231), wheel (lines 198-202), reset button
(lines 189-193), autorotate tick (lines 281-284). -/
def camStep (st : CamState) (ev : CamEvent) : CamState :=
  match ev with
  | .drag dx dy =>
      { st with
        x := st.x - dx * (1/100)
        y := max (-3/2) (min (3/2) (st.y + dy * (1/100))) }
  | .wheel delta =>
      { st with dist := max 5 (min 100 (st.dist + delta * (1/20))) }
  | .resetView => { x := 1/2, y := 2/5, dist := 25 }
  | .rotateTick => { st with x := st.x + 1/200 }

/-- The bounds the clamps are meant to maintain: elevation in
`[-1.5, 1.5]`, distance in `[5, 100]`. -/
def camWithinBounds (st : CamState) : Prop :=
  -3/2 ≤ st.y ∧ st.y ≤ 3/2 ∧ 5 ≤ st.dist ∧ st.dist ≤ 100

/-! ### Orthographic (2D) camera

The rendering collaborator's camera: an orthographic projection is
determined by the `left/right/top/bottom` frustum planes;
`updateProjectionMatrix` recomputes the projection matrix from those
planes, while the `aspect` property participates only in the perspective
projection (it is a plain stored property on an orthographic camera). -/

/-- The fixed orthographic field size `f = 20` (src/app.js line 56). -/
def orthoFieldSize : ℚ := 20

/-- The orthographic camera built on a switch to 2D mode:
`new THREE.OrthographicCamera` on `f*aspect / -2, f*aspect / 2, f / 2, f / -2`
(src/app.js line 57) followed by `syncCamera()`'s 2D branch,
`camera.position.set(0, 0, 30)` and `camera.lookAt(0, 0, 0)`
(src/app.js lines 67-70). The `aspect` property starts unset. -/
structure OrthoCamera where
  left : ℚ
  right : ℚ
  top : ℚ
  bottom : ℚ
  aspect : Option ℚ
  pos : Vec3
  target : Vec3
deriving DecidableEq, Repr

/-- Construction of the 2D camera from the current viewport aspect ratio
(`updateCamera`'s orthographic branch plus `syncCamera`). -/
def mkOrthoCamera (aspect : ℚ) : OrthoCamera :=
  { left := orthoFieldSize * aspect / (-2)
    right := orthoFieldSize * aspect / 2
    top := orthoFieldSize / 2
    bottom := orthoFieldSize / (-2)
    aspect := none
    pos := ⟨0, 0, 30⟩
    target := ⟨0, 0, 0⟩ }

/-- The window resize handler applied to a 2D camera (src/app.js
lines 205-209): it assigns `camera.aspect` and calls
`camera.updateProjectionMatrix()`; the orthographic projection is
recomputed from the unchanged `left/right/top/bottom` planes, so only the
stored `aspect` property changes. -/
def onResizeOrtho (newAspect : ℚ) (cam : OrthoCamera) : OrthoCamera :=
  { cam with aspect := some newAspect }

/-- The frustum half-extents `(right, top)` of a 2D camera. -/
def orthoHalfExtents (cam : OrthoCamera) : ℚ × ℚ :=
  (cam.right, cam.top)

/-- The spec's example shape `[2, 8, 12, 8]`. -/
def exampleShape : Shape := ⟨2, 8, 12, 8⟩

/-- The minimal shape `[1, 1, 1, 1]`. -/
def unitShape : Shape := ⟨1, 1, 1, 1⟩

/-! ### C1: block, cell and ghost counts -/

/-- C1: for every shape with H,B,S,D ≥ 1 and every explode ≥ 0, a rebuild
produces exactly H blocks; each block has a single front layer (every
interactive cell carries batch index 0) with exactly S×D cells and
exactly B-1 ghost layers, so the total interactive cell count is H×S×D
and does not depend on B. -/
theorem spec_layout_counts (sh : Shape) (e : ℚ) (hm : Bool)
    (v : Nat → Nat → Nat → ℚ) (hH : 1 ≤ sh.H) (hB : 1 ≤ sh.B)
    (hS : 1 ≤ sh.S) (hD : 1 ≤ sh.D) (he : 0 ≤ e) :
    (renderTensor sh e hm v).length = sh.H ∧
    (∀ blk ∈ renderTensor sh e hm v,
        blk.cells.length = sh.S * sh.D ∧
        blk.ghosts.length = sh.B - 1 ∧
        ∀ c ∈ blk.cells, c.indices.b = 0) ∧
    totalCells (renderTensor sh e hm v) = sh.H * sh.S * sh.D := by
  refine ⟨by simp [renderTensor], ?_, ?_⟩
  · intro blk hblk
    simp only [renderTensor, List.mem_map, List.mem_range] at hblk
    obtain ⟨h, hh, rfl⟩ := hblk
    refine ⟨frontCells_length sh e hm v h, ghostLayers_length sh e, ?_⟩
    intro c hc
    obtain ⟨s, d, hs, hd, rfl⟩ := frontCells_mem sh e hm v h c hc
    rfl
  · unfold totalCells
    have hmap : (renderTensor sh e hm v).map (fun b => b.cells.length)
        = (List.range sh.H).map fun _ => sh.S * sh.D := by
      simp [renderTensor, List.map_map, Function.comp_def, frontCells_length]
    rw [hmap, sum_const_range, Nat.mul_assoc]

/-- Witness for `spec_layout_counts` at the spec's example shape
`[2, 8, 12, 8]` with explode 0.3. -/
theorem spec_layout_counts_witness :
    (renderTensor exampleShape (3/10) false fun _ _ _ => 0).length = 2 ∧
    (∀ blk ∈ renderTensor exampleShape (3/10) false fun _ _ _ => 0,
        blk.cells.length = 96 ∧
        blk.ghosts.length = 7 ∧
        ∀ c ∈ blk.cells, c.indices.b = 0) ∧
    totalCells (renderTensor exampleShape (3/10) false fun _ _ _ => 0) = 192 := by
  have hx := spec_layout_counts exampleShape (3/10) false (fun _ _ _ => 0)
    (by decide) (by decide) (by decide) (by decide) (by norm_num)
  simpa [exampleShape] using hx

/-! ### C2: layout determinism -/

/-- C2: the layout is deterministic in positions: two rebuilds with the
same shape and explode factor assign identical positions to every cell,
ghost layer and block group, regardless of the randomized activation
values (and of the heatmap flag). -/
theorem spec_layout_deterministic (sh : Shape) (e : ℚ) (hm hm' : Bool)
    (v v' : Nat → Nat → Nat → ℚ) :
    scenePlacement (renderTensor sh e hm v)
      = scenePlacement (renderTensor sh e hm' v') := by
  simp [scenePlacement, renderTensor, List.map_map, Function.comp_def,
    frontCells, List.map_flatMap, cellPlacement, mkCell, ghostPlacement]

/-! ### C7: picking miss resets to baseline -/

lemma stripCell_reset (hm : Bool) (c : Cell) :
    stripCell { c with emissive := baselineEmissive hm, edgeOpacity := 1/5 }
      = stripCell c := rfl

/-- C7: on a picking miss the handler only hides the tooltip and reverts
every front cell to the heatmap-dependent baseline emphasis (edge opacity
0.2); the two baselines are distinct, and no other cell or block data
changes. -/
theorem spec_miss_resets_to_baseline (hm : Bool) (st : UIState) :
    (onMouseMoveMiss hm st).tooltipVisible = false ∧
    (∀ blk ∈ (onMouseMoveMiss hm st).blocks, ∀ c ∈ blk.cells,
        c.emissive = baselineEmissive hm ∧ c.edgeOpacity = 1/5) ∧
    (onMouseMoveMiss hm st).blocks.map stripBlock = st.blocks.map stripBlock ∧
    baselineEmissive true ≠ baselineEmissive false := by
  refine ⟨rfl, ?_, ?_, by norm_num [baselineEmissive]⟩
  · intro blk hblk c hc
    simp only [onMouseMoveMiss, resetHighlights, List.mem_map] at hblk
    obtain ⟨b0, hb0, rfl⟩ := hblk
    simp only [List.mem_map] at hc
    obtain ⟨c0, hc0, rfl⟩ := hc
    exact ⟨rfl, rfl⟩
  · simp [onMouseMoveMiss, resetHighlights, List.map_map, Function.comp_def,
      stripBlock, stripCell]

/-! ### C8: camera bounds invariant -/

lemma camStep_preserves (st : CamState) (ev : CamEvent)
    (hst : camWithinBounds st) : camWithinBounds (camStep st ev) := by
  obtain ⟨h1, h2, h3, h4⟩ := hst
  cases ev with
  | drag dx dy =>
    exact ⟨le_max_left _ _, max_le (by norm_num) (min_le_left _ _), h3, h4⟩
  | wheel delta =>
    exact ⟨h1, h2, le_max_left _ _, max_le (by norm_num) (min_le_left _ _)⟩
  | resetView =>
    exact ⟨by norm_num [camStep], by norm_num [camStep], by norm_num [camStep],
      by norm_num [camStep]⟩
  | rotateTick =>
    exact ⟨h1, h2, h3, h4⟩

/-- C8: starting from the default camera state, after any finite sequence
of input events the elevation stays within [-1.5, 1.5] and the distance
within [5, 100]. -/
theorem spec_camera_bounds (evs : List CamEvent) :
    camWithinBounds (evs.foldl camStep defaultCam) := by
  have hgen : ∀ (l : List CamEvent) (st : CamState), camWithinBounds st →
      camWithinBounds (l.foldl camStep st) := by
    intro l
    induction l with
    | nil => exact fun st h => h
    | cons ev tl ih => exact fun st h => ih _ (camStep_preserves st ev h)
  exact hgen evs defaultCam ⟨by norm_num [defaultCam], by norm_num [defaultCam],
    by norm_num [defaultCam], by norm_num [defaultCam]⟩

/-! ### C10: highlighting is a pure emphasis update -/

lemma stripCell_highlightCell (s d : Nat) (c : Cell) :
    stripCell (highlightCell s d c) = stripCell c := by
  unfold highlightCell
  split <;> rfl

/-- C10: hover highlighting and the pointer-leave reset modify only the
emissive intensity and edge opacity of front cells: block positions, cell
indices, positions, activation values, the ghost drawables and the number
of blocks are all unchanged (no rebuild occurs). -/
theorem spec_highlight_pure_emphasis (s d : Nat) (hm : Bool) (blocks : List Block) :
    (highlightCrossSection s d blocks).map stripBlock = blocks.map stripBlock ∧
    (resetHighlights hm blocks).map stripBlock = blocks.map stripBlock ∧
    (highlightCrossSection s d blocks).length = blocks.length ∧
    (resetHighlights hm blocks).length = blocks.length := by
  refine ⟨?_, ?_, by simp [highlightCrossSection], by simp [resetHighlights]⟩
  · simp [highlightCrossSection, List.map_map, Function.comp_def, stripBlock,
      stripCell_highlightCell]
  · simp [resetHighlights, List.map_map, Function.comp_def, stripBlock, stripCell]


/-! ### C3: front-layer cell positions -/

lemma frontCellAt_eq (sh : Shape) (e : ℚ) (hm : Bool) (v : Nat → Nat → Nat → ℚ)
    (h s d : Nat) (hh : h < sh.H) (hs : s < sh.S) (hd : d < sh.D) :
    frontCellAt sh e hm v h s d = some (mkCell sh e hm v h s d) := by
  unfold frontCellAt
  rw [renderTensor_getElem sh e hm v h hh]
  simpa using frontCells_getElem sh e hm v h s d hs hd

/-- C3: each front-layer cell (h, 0, s, d) is positioned at
x = -(blockWidth/2) + d(cellSize+gap) + cellSize/2 + xyOffset(0),
y = (blockHeight/2) - s(cellSize+gap) - cellSize/2 + xyOffset(0),
z = zOffset(0) within its head group, with blockWidth = D(cellSize+gap)
and blockHeight = S(cellSize+gap); head group h sits at x-offset
-(H-1)·headSpacing/2 + h·headSpacing; increasing s moves cells downward
(decreasing y) and increasing d moves them rightward (increasing x). -/
theorem spec_front_cell_positions (sh : Shape) (e : ℚ) (hm : Bool)
    (v : Nat → Nat → Nat → ℚ) (h s d : Nat)
    (hh : h < sh.H) (hs : s < sh.S) (hd : d < sh.D) :
    (∃ blk c, (renderTensor sh e hm v)[h]? = some blk ∧
        blk.groupX = -((sh.H : ℚ) - 1) * headSpacing sh / 2 + (h : ℚ) * headSpacing sh ∧
        blk.cells[s * sh.D + d]? = some c ∧
        c.indices = ⟨h, 0, s, d⟩ ∧
        c.pos.x = -(blockW sh / 2) + (d : ℚ) * (cellSize + gap) + cellSize / 2 + xyOffset e 0 ∧
        c.pos.y = blockH sh / 2 - (s : ℚ) * (cellSize + gap) - cellSize / 2 + xyOffset e 0 ∧
        c.pos.z = zOffset e 0 ∧
        blockW sh = (sh.D : ℚ) * (cellSize + gap) ∧
        blockH sh = (sh.S : ℚ) * (cellSize + gap)) ∧
    (∀ d', d' + 1 < sh.D → ∀ c1 c2,
        frontCellAt sh e hm v h s d' = some c1 →
        frontCellAt sh e hm v h s (d' + 1) = some c2 → c1.pos.x < c2.pos.x) ∧
    (∀ s', s' + 1 < sh.S → ∀ c1 c2,
        frontCellAt sh e hm v h s' d = some c1 →
        frontCellAt sh e hm v h (s' + 1) d = some c2 → c2.pos.y < c1.pos.y) := by
  have hcg : (0 : ℚ) < cellSize + gap := by norm_num [cellSize, gap]
  refine ⟨?_, ?_, ?_⟩
  · refine ⟨_, mkCell sh e hm v h s d, renderTensor_getElem sh e hm v h hh, ?_,
      frontCells_getElem sh e hm v h s d hs hd, rfl, rfl, rfl, rfl, rfl, rfl⟩
    show startX sh + (h : ℚ) * headSpacing sh = _
    unfold startX
    ring
  · intro d' hd' c1 c2 hc1 hc2
    rw [frontCellAt_eq sh e hm v h s d' hh hs (by omega)] at hc1
    rw [frontCellAt_eq sh e hm v h s (d' + 1) hh hs hd'] at hc2
    injection hc1 with hc1
    injection hc2 with hc2
    subst hc1
    subst hc2
    show (-(blockW sh / 2) + (d' : ℚ) * (cellSize + gap) + cellSize / 2) + xyOffset e 0
        < (-(blockW sh / 2) + ((d' + 1 : Nat) : ℚ) * (cellSize + gap) + cellSize / 2) + xyOffset e 0
    have hcast : ((d' + 1 : Nat) : ℚ) = (d' : ℚ) + 1 := by push_cast; ring
    rw [hcast]
    nlinarith [hcg]
  · intro s' hs' c1 c2 hc1 hc2
    rw [frontCellAt_eq sh e hm v h s' d hh (by omega) hd] at hc1
    rw [frontCellAt_eq sh e hm v h (s' + 1) d hh hs' hd] at hc2
    injection hc1 with hc1
    injection hc2 with hc2
    subst hc1
    subst hc2
    show (blockH sh / 2 - ((s' + 1 : Nat) : ℚ) * (cellSize + gap) - cellSize / 2) + xyOffset e 0
        < (blockH sh / 2 - (s' : ℚ) * (cellSize + gap) - cellSize / 2) + xyOffset e 0
    have hcast : ((s' + 1 : Nat) : ℚ) = (s' : ℚ) + 1 := by push_cast; ring
    rw [hcast]
    nlinarith [hcg]

/-- Witness for `spec_front_cell_positions` at the shape [1,1,1,1],
explode 0, cell (0, 0, 0, 0). -/
theorem spec_front_cell_positions_witness :
    (∃ blk c, (renderTensor unitShape 0 false fun _ _ _ => 0)[0]? = some blk ∧
        blk.groupX = -((unitShape.H : ℚ) - 1) * headSpacing unitShape / 2
          + ((0 : Nat) : ℚ) * headSpacing unitShape ∧
        blk.cells[0 * unitShape.D + 0]? = some c ∧
        c.indices = ⟨0, 0, 0, 0⟩ ∧
        c.pos.x = -(blockW unitShape / 2) + ((0 : Nat) : ℚ) * (cellSize + gap)
          + cellSize / 2 + xyOffset 0 0 ∧
        c.pos.y = blockH unitShape / 2 - ((0 : Nat) : ℚ) * (cellSize + gap)
          - cellSize / 2 + xyOffset 0 0 ∧
        c.pos.z = zOffset 0 0 ∧
        blockW unitShape = (unitShape.D : ℚ) * (cellSize + gap) ∧
        blockH unitShape = (unitShape.S : ℚ) * (cellSize + gap)) ∧
    (∀ d', d' + 1 < unitShape.D → ∀ c1 c2,
        frontCellAt unitShape 0 false (fun _ _ _ => 0) 0 0 d' = some c1 →
        frontCellAt unitShape 0 false (fun _ _ _ => 0) 0 0 (d' + 1) = some c2 →
        c1.pos.x < c2.pos.x) ∧
    (∀ s', s' + 1 < unitShape.S → ∀ c1 c2,
        frontCellAt unitShape 0 false (fun _ _ _ => 0) 0 s' 0 = some c1 →
        frontCellAt unitShape 0 false (fun _ _ _ => 0) 0 (s' + 1) 0 = some c2 →
        c2.pos.y < c1.pos.y) :=
  spec_front_cell_positions unitShape 0 false (fun _ _ _ => 0) 0 0 0
    (by decide) (by decide) (by decide)

/-! ### C4: batch offsets and ghost layers -/

lemma ghostAt_eq (sh : Shape) (e : ℚ) (hm : Bool) (v : Nat → Nat → Nat → ℚ)
    (h b : Nat) (hh : h < sh.H) (hb1 : 1 ≤ b) (hbB : b < sh.B) :
    ghostAt sh e hm v h b = some (mkGhost sh e b) := by
  unfold ghostAt
  rw [renderTensor_getElem sh e hm v h hh]
  have hb' : b - 1 < sh.B - 1 := by omega
  have hb'' : b - 1 + 1 = b := by omega
  simp [ghostLayers_eq, List.getElem?_map, List.getElem?_range, hb', hb'']

/-- C4: for every batch index b ≥ 1 the offsets are
xyOffset(b) = b · 0.15 · (1 + explode) and
zOffset(b) = -b · (depth + 0.1) · (1 + explode · 3); the ghost layer of
batch b is a single volume spanning (blockWidth, blockHeight) at
(xyOffset(b), xyOffset(b), zOffset(b)), and the magnitude of the depth
offset grows strictly faster with explode than the lateral offset. -/
theorem spec_batch_offsets (sh : Shape) (e : ℚ) (hm : Bool)
    (v : Nat → Nat → Nat → ℚ) (h b : Nat)
    (hh : h < sh.H) (hb1 : 1 ≤ b) (hbB : b < sh.B) (he : 0 ≤ e) :
    xyOffset e b = (b : ℚ) * (3/20) * (1 + e) ∧
    zOffset e b = -(b : ℚ) * (depth + 1/10) * (1 + e * 3) ∧
    (∃ g, ghostAt sh e hm v h b = some g ∧
        g.pos = ⟨xyOffset e b, xyOffset e b, zOffset e b⟩ ∧
        g.footprint = (blockW sh, blockH sh)) ∧
    (∀ e', e < e' →
        xyOffset e' b - xyOffset e b < |zOffset e' b| - |zOffset e b|) := by
  have hbQ : (1 : ℚ) ≤ (b : ℚ) := by exact_mod_cast hb1
  have hb0 : (0 : ℚ) ≤ (b : ℚ) := le_trans zero_le_one hbQ
  refine ⟨rfl, by unfold zOffset explodeFac; ring,
    ⟨mkGhost sh e b, ghostAt_eq sh e hm v h b hh hb1 hbB, rfl, rfl⟩, ?_⟩
  intro e' he'
  have habs : ∀ x : ℚ, 0 ≤ x →
      |zOffset x b| = (b : ℚ) * (depth + 1/10) * (1 + x * 3) := by
    intro x hx
    have hz : zOffset x b = -((b : ℚ) * (depth + 1/10) * (1 + x * 3)) := by
      unfold zOffset explodeFac; ring
    rw [hz, abs_neg, abs_of_nonneg]
    exact mul_nonneg (mul_nonneg hb0 (by norm_num [depth])) (by linarith)
  rw [habs e he, habs e' (le_trans he (le_of_lt he'))]
  unfold xyOffset depth
  have ht : (0 : ℚ) < e' - e := by linarith
  nlinarith [mul_pos (lt_of_lt_of_le zero_lt_one hbQ) ht]

/-- The shape [1, 2, 1, 1], the smallest with a ghost layer. -/
def ghostShape : Shape := ⟨1, 2, 1, 1⟩

/-- Witness for `spec_batch_offsets` at shape [1,2,1,1], batch index 1,
explode 0. -/
theorem spec_batch_offsets_witness :
    xyOffset 0 1 = ((1 : Nat) : ℚ) * (3/20) * (1 + 0) ∧
    zOffset 0 1 = -((1 : Nat) : ℚ) * (depth + 1/10) * (1 + 0 * 3) ∧
    (∃ g, ghostAt ghostShape 0 false (fun _ _ _ => 0) 0 1 = some g ∧
        g.pos = ⟨xyOffset 0 1, xyOffset 0 1, zOffset 0 1⟩ ∧
        g.footprint = (blockW ghostShape, blockH ghostShape)) ∧
    (∀ e', 0 < e' →
        xyOffset e' 1 - xyOffset 0 1 < |zOffset e' 1| - |zOffset 0 1|) :=
  spec_batch_offsets ghostShape 0 false (fun _ _ _ => 0) 0 1
    (by decide) (by decide) (by decide) (le_refl 0)

/-! ### C5: picking hits only front-layer cells -/

lemma pickSet_b_zero (sh : Shape) (e : ℚ) (hm : Bool) (v : Nat → Nat → Nat → ℚ)
    (c : Cell) (hc : c ∈ pickSet (renderTensor sh e hm v)) : c.indices.b = 0 := by
  simp only [pickSet, List.mem_flatMap] at hc
  obtain ⟨blk, hblk, hcell⟩ := hc
  simp only [renderTensor, List.mem_map, List.mem_range] at hblk
  obtain ⟨h, hh, rfl⟩ := hblk
  obtain ⟨s, d, hs, hd, rfl⟩ := frontCells_mem sh e hm v h c hcell
  rfl

/-- C5: picking returns some index iff the pointer ray intersects at
least one front-layer cell mesh (the pick set contains exactly the
registered front cells, never ghost drawables); on a hit the result is
the nearest intersection's registered index, whose batch component is
always 0. -/
theorem spec_pick_front_only (sh : Shape) (e : ℚ) (hm : Bool)
    (v : Nat → Nat → Nat → ℚ) (hits : List Cell)
    (hsub : ∀ c ∈ hits, c ∈ pickSet (renderTensor sh e hm v)) :
    ((pick hits).isSome ↔ hits ≠ []) ∧
    (∀ idx, pick hits = some idx →
        idx.b = 0 ∧ ∃ c, hits.head? = some c ∧ c.indices = idx) ∧
    (∀ c ∈ pickSet (renderTensor sh e hm v), c.indices.b = 0) := by
  refine ⟨?_, ?_, fun c hc => pickSet_b_zero sh e hm v c hc⟩
  · cases hits with
    | nil => simp [pick]
    | cons c tl => simp [pick]
  · intro idx hidx
    cases hits with
    | nil => simp [pick] at hidx
    | cons c tl =>
      have hcidx : c.indices = idx := by simpa [pick] using hidx
      have hb := pickSet_b_zero sh e hm v c (hsub c (by simp))
      exact ⟨hcidx ▸ hb, c, rfl, hcidx⟩

/-- Witness for `spec_pick_front_only`: the full pick set of the
[1,1,1,1] scene as the intersection list. -/
theorem spec_pick_front_only_witness :
    ((pick (pickSet (renderTensor unitShape 0 false fun _ _ _ => 0))).isSome ↔
        pickSet (renderTensor unitShape 0 false fun _ _ _ => 0) ≠ []) ∧
    (∀ idx, pick (pickSet (renderTensor unitShape 0 false fun _ _ _ => 0)) = some idx →
        idx.b = 0 ∧ ∃ c, (pickSet (renderTensor unitShape 0 false fun _ _ _ => 0)).head?
          = some c ∧ c.indices = idx) ∧
    (∀ c ∈ pickSet (renderTensor unitShape 0 false fun _ _ _ => 0), c.indices.b = 0) :=
  spec_pick_front_only unitShape 0 false (fun _ _ _ => 0)
    (pickSet (renderTensor unitShape 0 false fun _ _ _ => 0)) (fun _ hc => hc)

/-! ### C6: cross-section highlighting -/

lemma highlightCell_indices (s d : Nat) (c : Cell) :
    (highlightCell s d c).indices = c.indices := by
  unfold highlightCell
  split <;> rfl

lemma highlightCell_emissive_iff (s d : Nat) (c : Cell) :
    (highlightCell s d c).emissive = 1 ↔ (c.indices.s = s ∧ c.indices.d = d) := by
  unfold highlightCell
  split
  · next hcond => simpa using hcond
  · next hcond => norm_num [hcond]

lemma countP_eq_range (n d : Nat) :
    (List.range n).countP (fun i => decide (i = d)) = if d < n then 1 else 0 := by
  induction n with
  | zero => simp
  | succ m ih =>
    rw [List.range_succ, List.countP_append, ih]
    by_cases hmd : m = d
    · subst hmd
      have h1 : List.countP (fun i => decide (i = m)) [m] = 1 := by simp
      rw [h1]
      split_ifs <;> omega
    · have h1 : List.countP (fun i => decide (i = d)) [m] = 0 := by simp [hmd]
      rw [h1]
      split_ifs <;> omega

lemma sum_ite_range (n s c : Nat) :
    ((List.range n).map fun i => if i = s then c else 0).sum = if s < n then c else 0 := by
  induction n with
  | zero => simp
  | succ m ih =>
    rw [List.range_succ, List.map_append, List.sum_append, ih]
    by_cases hms : m = s
    · subst hms
      simp
    · simp only [List.map_cons, List.map_nil, List.sum_cons, List.sum_nil, if_neg hms]
      split_ifs <;> omega

lemma countP_highlight_row (sh : Shape) (e : ℚ) (hm : Bool)
    (v : Nat → Nat → Nat → ℚ) (h s d s' : Nat) (hd : d < sh.D) :
    ((((List.range sh.D).map fun d' => mkCell sh e hm v h s' d').map
        (highlightCell s d)).countP fun c => decide (c.emissive = 1))
      = if s' = s then 1 else 0 := by
  rw [List.countP_map, List.countP_map]
  have hcong : ∀ d' ∈ List.range sh.D,
      ((((fun c => decide (c.emissive = 1)) ∘ highlightCell s d) ∘
        fun d' => mkCell sh e hm v h s' d') d' = true) ↔
      ((fun d' : Nat => decide (s' = s ∧ d' = d)) d' = true) := by
    intro d' _
    simp only [Function.comp_apply, decide_eq_true_eq]
    rw [highlightCell_emissive_iff]
    simp [mkCell]
  rw [List.countP_congr hcong]
  by_cases hss : s' = s
  · subst hss
    have hcong2 : ∀ d' ∈ List.range sh.D,
        ((fun d' : Nat => decide (s' = s' ∧ d' = d)) d' = true) ↔
        ((fun d' : Nat => decide (d' = d)) d' = true) := by
      intro d' _
      simp
    rw [List.countP_congr hcong2, countP_eq_range]
    simp [hd]
  · have hcong2 : ∀ d' ∈ List.range sh.D,
        ((fun d' : Nat => decide (s' = s ∧ d' = d)) d' = true) ↔
        ((fun _ : Nat => false) d' = true) := by
      intro d' _
      simp [hss]
    rw [List.countP_congr hcong2]
    simp [hss]

lemma countP_highlight_frontCells (sh : Shape) (e : ℚ) (hm : Bool)
    (v : Nat → Nat → Nat → ℚ) (h s d : Nat) (hs : s < sh.S) (hd : d < sh.D) :
    (((frontCells sh e hm v h).map (highlightCell s d)).countP
        fun c => decide (c.emissive = 1)) = 1 := by
  unfold frontCells
  rw [List.map_flatMap, List.countP_flatMap]
  have hrow : ∀ s' ∈ List.range sh.S,
      ((List.countP fun c => decide (c.emissive = 1)) ∘ fun s' =>
        ((List.range sh.D).map fun d' => mkCell sh e hm v h s' d').map
          (highlightCell s d)) s'
      = (fun s' : Nat => if s' = s then 1 else 0) s' :=
    fun s' _ => countP_highlight_row sh e hm v h s d s' hd
  rw [List.map_congr_left hrow, sum_ite_range]
  simp [hs]

lemma emphasizedCount_highlight (sh : Shape) (e : ℚ) (hm : Bool)
    (v : Nat → Nat → Nat → ℚ) (s d : Nat) (hs : s < sh.S) (hd : d < sh.D) :
    emphasizedCount (highlightCrossSection s d (renderTensor sh e hm v)) = sh.H := by
  unfold emphasizedCount highlightCrossSection renderTensor
  rw [List.map_map, List.map_map]
  have hper : ∀ h ∈ List.range sh.H,
      ((((fun b : Block => b.cells.countP fun c => decide (c.emissive = 1)) ∘
        fun b : Block => { b with cells := b.cells.map (highlightCell s d) }) ∘
        fun h : Nat => ({ groupX := startX sh + (h : ℚ) * headSpacing sh
                          cells := frontCells sh e hm v h
                          ghosts := ghostLayers sh e } : Block)) h)
      = (fun _ : Nat => 1) h :=
    fun h _ => countP_highlight_frontCells sh e hm v h s d hs hd
  rw [List.map_congr_left hper, sum_const_range]
  omega

/-- C6: hovering a front cell with indices (h, 0, s, d) emphasizes
exactly the front cells across all heads whose (s, d) equal the hovered
cell's (emissive intensity 1, edge opacity 1) and de-emphasizes every
other front cell (emissive intensity 0.1, edge opacity 0.1); each block
contains exactly one emphasized cell, for H emphasized cells in total. -/
theorem spec_cross_section (sh : Shape) (e : ℚ) (hm : Bool)
    (v : Nat → Nat → Nat → ℚ) (s d : Nat) (hs : s < sh.S) (hd : d < sh.D) :
    (∀ blk ∈ highlightCrossSection s d (renderTensor sh e hm v), ∀ c ∈ blk.cells,
        ((c.indices.s = s ∧ c.indices.d = d) → c.emissive = 1 ∧ c.edgeOpacity = 1) ∧
        (¬(c.indices.s = s ∧ c.indices.d = d) →
          c.emissive = 1/10 ∧ c.edgeOpacity = 1/10)) ∧
    (∀ blk ∈ highlightCrossSection s d (renderTensor sh e hm v),
        (blk.cells.countP fun c => decide (c.emissive = 1)) = 1) ∧
    emphasizedCount (highlightCrossSection s d (renderTensor sh e hm v)) = sh.H := by
  refine ⟨?_, ?_, emphasizedCount_highlight sh e hm v s d hs hd⟩
  · intro blk hblk c hc
    simp only [highlightCrossSection, List.mem_map] at hblk
    obtain ⟨b0, hb0, rfl⟩ := hblk
    simp only [List.mem_map] at hc
    obtain ⟨c0, hc0, rfl⟩ := hc
    constructor
    · intro hcond
      rw [highlightCell_indices] at hcond
      unfold highlightCell
      rw [if_pos hcond]
      exact ⟨rfl, rfl⟩
    · intro hcond
      rw [highlightCell_indices] at hcond
      unfold highlightCell
      rw [if_neg hcond]
      exact ⟨rfl, rfl⟩
  · intro blk hblk
    simp only [highlightCrossSection, renderTensor, List.mem_map, List.mem_range] at hblk
    obtain ⟨b0, ⟨h, hh, rfl⟩, rfl⟩ := hblk
    exact countP_highlight_frontCells sh e hm v h s d hs hd

/-- Witness for `spec_cross_section`: hovering (0, 0, 3, 5) in the
[2, 8, 12, 8] scene emphasizes exactly one cell per head, 2 in total. -/
theorem spec_cross_section_witness :
    (∀ blk ∈ highlightCrossSection 3 5 (renderTensor exampleShape (3/10) false fun _ _ _ => 0),
        ∀ c ∈ blk.cells,
        ((c.indices.s = 3 ∧ c.indices.d = 5) → c.emissive = 1 ∧ c.edgeOpacity = 1) ∧
        (¬(c.indices.s = 3 ∧ c.indices.d = 5) →
          c.emissive = 1/10 ∧ c.edgeOpacity = 1/10)) ∧
    (∀ blk ∈ highlightCrossSection 3 5 (renderTensor exampleShape (3/10) false fun _ _ _ => 0),
        (blk.cells.countP fun c => decide (c.emissive = 1)) = 1) ∧
    emphasizedCount (highlightCrossSection 3 5
      (renderTensor exampleShape (3/10) false fun _ _ _ => 0)) = 2 := by
  have hx := spec_cross_section exampleShape (3/10) false (fun _ _ _ => 0) 3 5
    (by decide) (by decide)
  exact ⟨hx.1, hx.2.1, hx.2.2⟩

/-! ### C9: orthographic camera -/

/-- C9 counterexample: in 2D mode, a window resize does not recompute the
orthographic frustum half-extents from the current viewport aspect ratio.
After switching to 2D at aspect 1 and resizing to aspect 2, the
half-extents remain (10, 10) instead of the (20, 10) a recomputation at
aspect 2 would give. -/
theorem spec_ortho_resize_cex :
    orthoHalfExtents (onResizeOrtho 2 (mkOrthoCamera 1))
      ≠ orthoHalfExtents (mkOrthoCamera 2) := by
  unfold orthoHalfExtents onResizeOrtho mkOrthoCamera orthoFieldSize
  intro hcontra
  rw [Prod.mk.injEq] at hcontra
  norm_num at hcontra

/-- C9 (amended): in 2D mode the camera sits at the fixed position
(0, 0, 30) looking at the origin, and the frustum half-extents are
computed from the fixed field size 20 and the current viewport aspect
ratio on every mode switch; a window resize merely stores the new aspect
ratio in the camera's aspect property and leaves the orthographic
half-extents unchanged. -/
theorem spec_ortho_camera (a a' : ℚ) :
    (mkOrthoCamera a).pos = ⟨0, 0, 30⟩ ∧
    (mkOrthoCamera a).target = ⟨0, 0, 0⟩ ∧
    orthoHalfExtents (mkOrthoCamera a) = (orthoFieldSize * a / 2, orthoFieldSize / 2) ∧
    orthoHalfExtents (onResizeOrtho a' (mkOrthoCamera a))
      = orthoHalfExtents (mkOrthoCamera a) ∧
    (onResizeOrtho a' (mkOrthoCamera a)).aspect = some a' :=
  ⟨rfl, rfl, rfl, rfl, rfl⟩
